import Mathlib

/-!
Verification of the Neuro-AI desktop application's backend supervision and
batch analysis behaviour, as a shallow embedding of the TypeScript sources:
the Redux `analysisSlice` and `systemSlice` reducers, the Electron main
process (`startBackend`, the `before-quit` handler), and — where the
repository's dispatcher/aggregator code is referenced only through the
design document — models built from that document's wording.
JavaScript numbers that are only stored, copied and compared are embedded
as `Int`.
-/

namespace NeuroAI

/-! ### Data model of `analysisSlice` (src/unnamed/part_001) -/

inductive ModelType where
  | brain
  | chest
deriving DecidableEq

inductive Nivel where
  | alto
  | medio
  | bajo
deriving DecidableEq

structure MedicalInfo where
  titulo : String
  descripcion : String
  recomendaciones : String
  nivel : Nivel
  urgencia : String
deriving DecidableEq

structure AnalysisResult where
  id : String
  fileName : String
  modelType : ModelType
  prediction : String
  confidence : Int
  allPredictions : List (String × Int)
  medicalInfo : MedicalInfo
  timestamp : String
  success : Bool
  error : Option String
deriving DecidableEq

structure ImageFile where
  id : String
  name : String
  path : String
  size : Int
  type : String
  dataUrl : Option String
  preview : Option String
deriving DecidableEq

inductive AnalysisType where
  | auto
  | brain
  | chest
deriving DecidableEq

structure AnalysisState where
  images : List ImageFile
  currentImageIndex : Int
  results : List AnalysisResult
  isAnalyzing : Bool
  analysisProgress : Int
  currentAnalysisType : AnalysisType
  batchMode : Bool
  selectedResults : List String
deriving DecidableEq

/-- `initialState` of the analysis slice. -/
def analysisInitialState : AnalysisState :=
  { images := []
    currentImageIndex := 0
    results := []
    isAnalyzing := false
    analysisProgress := 0
    currentAnalysisType := AnalysisType.auto
    batchMode := false
    selectedResults := [] }

/-- Reducer `removeImage`: filters out every image whose id equals the
payload, then decrements `currentImageIndex` when it is at or past the end
of the shrunken list and still positive. -/
def removeImage (s : AnalysisState) (pid : String) : AnalysisState :=
  let imgs := s.images.filter (fun img => img.id != pid)
  { s with
    images := imgs
    currentImageIndex :=
      if s.currentImageIndex ≥ (imgs.length : Int) ∧ s.currentImageIndex > 0 then
        s.currentImageIndex - 1
      else
        s.currentImageIndex }

/-- Reducer `addResult`: pushes the payload onto `results`. -/
def addResult (s : AnalysisState) (r : AnalysisResult) : AnalysisState :=
  { s with results := s.results ++ [r] }

/-- Reducer `setIsAnalyzing`: sets the flag; when the payload is `false`
it also resets `analysisProgress` to 0. -/
def setIsAnalyzing (s : AnalysisState) (b : Bool) : AnalysisState :=
  { s with
    isAnalyzing := b
    analysisProgress := if b then s.analysisProgress else 0 }

/-- `currentImageIndex` designates a valid position: inside the image list,
or both index and list length are zero. -/
abbrev validIndex (s : AnalysisState) : Prop :=
  0 ≤ s.currentImageIndex ∧
    (s.currentImageIndex < (s.images.length : Int) ∨
      (s.currentImageIndex = 0 ∧ s.images.length = 0))

/-! ### Data model of `systemSlice`
(src/neuro-ai-app/src/renderer/store/slices/systemSlice.ts) -/

inductive NotificationType where
  | info
  | success
  | warning
  | error
deriving DecidableEq

structure NotificationEntry where
  id : String
  type : NotificationType
  message : String
  timestamp : String
deriving DecidableEq

structure BackendStatus where
  isRunning : Bool
  modelsLoaded : Bool
  port : Option Int
deriving DecidableEq

structure AppInfo where
  name : String
  version : String
  platform : String
  arch : String
deriving DecidableEq

structure SystemState where
  backendStatus : BackendStatus
  appInfo : Option AppInfo
  notifications : List NotificationEntry
  isFullscreen : Bool
  isDarkMode : Bool
deriving DecidableEq

/-- Reducer `addNotification`: pushes a new entry (the code stamps it with
`Date.now()` and `new Date().toISOString()`, passed here as the `freshId`
and `nowIso` arguments), then keeps only the last 10 entries
(`slice(-10)`) when the list has grown beyond 10. -/
def addNotification (s : SystemState) (t : NotificationType) (message : String)
    (freshId nowIso : String) : SystemState :=
  let l := s.notifications ++ [{ id := freshId, type := t, message := message,
                                 timestamp := nowIso }]
  { s with notifications := if l.length > 10 then l.drop (l.length - 10) else l }

/-! ### Electron main process (src/unnamed/part_002) -/

/-- The child-process handle held in `backendProcess`. In Node,
`killed` records whether `kill()` has been invoked on the handle. -/
structure BackendProc where
  killed : Bool
deriving DecidableEq

/-- Observable state of the Electron main process around the backend:
the process handle, the `isQuitting` flag, whether global shortcuts are
registered, and two ghost observers — `killCount` counts invocations of
`backendProcess.kill()`, and `pendingRestart` would hold the delay of a
scheduled backend restart; no code path in the main process ever sets it. -/
structure MainState where
  backendProcess : Option BackendProc
  isQuitting : Bool
  shortcutsRegistered : Bool
  killCount : Nat
  pendingRestart : Option Nat
  spawnCount : Nat
deriving DecidableEq

/-- The child-process events one can subscribe to. -/
inductive BackendEvent where
  | stdoutData
  | stderrData
  | errorEvent
  | exitEvent
deriving DecidableEq, BEq

/-- The events `startBackend` subscribes to on the spawned process:
`stdout.on('data')`, `stderr.on('data')` and `on('error')`.
There is no `on('exit')` (or `'close'`) subscription. -/
def startBackendSubscribedEvents : List BackendEvent :=
  [BackendEvent.stdoutData, BackendEvent.stderrData, BackendEvent.errorEvent]

/-- Reaction of the main process to a termination of the backend process:
since `startBackend` registers no exit handler, the event is dropped and
the state is unchanged. -/
def onBackendExit (s : MainState) : MainState := s

/-- The main-process state right after `startBackend` spawned the backend. -/
def mainAfterSpawn : MainState :=
  { backendProcess := some { killed := false }
    isQuitting := false
    shortcutsRegistered := true
    killCount := 0
    pendingRestart := none
    spawnCount := 1 }

/-- The `app` events the main process registers handlers for. -/
inductive AppEvent where
  | beforeQuit
  | windowAllClosed
  | activate
  | secondInstance
deriving DecidableEq, BEq

/-- Handlers registered on `app` in the main process. -/
def registeredAppEvents : List AppEvent :=
  [AppEvent.beforeQuit, AppEvent.windowAllClosed, AppEvent.activate,
   AppEvent.secondInstance]

/-- The `before-quit` handler: sets `isQuitting`, kills the backend
process when a handle exists and `kill()` has not been invoked yet, and
unregisters all global shortcuts. -/
def beforeQuit (s : MainState) : MainState :=
  let s1 := { s with isQuitting := true }
  let s2 :=
    match s1.backendProcess with
    | some p =>
        if !p.killed then
          { s1 with backendProcess := some { p with killed := true },
                    killCount := s1.killCount + 1 }
        else s1
    | none => s1
  { s2 with shortcutsRegistered := false }

/-! ### Startup readiness detection (`startBackend`'s promise) -/

/-- Events that can reach the `startBackend` promise: a chunk of console
output on stdout or stderr, the spawn `error` event, and the 10-second
timeout firing. -/
inductive StartupEvent where
  | stdout (chunk : String)
  | stderr (chunk : String)
  | spawnError
  | timeoutFires
deriving DecidableEq

/-- Substring check on character lists, mirroring JavaScript
`String.prototype.includes`. -/
def containsSub (p : List Char) : List Char → Bool
  | [] => p.isEmpty
  | c :: rest => p.isPrefixOf (c :: rest) || containsSub p rest

/-- The stdout handler's readiness test: the chunk includes `"Running on"`. -/
def stdoutSignalsReady (chunk : String) : Bool :=
  containsSub "Running on".data chunk.data

/-- Whether an event settles the `startBackend` promise: a stdout chunk
containing `"Running on"` resolves `true`, the `error` event rejects, the
timeout resolves `false`; stderr output never settles it. -/
def settlesStartup : StartupEvent → Bool
  | StartupEvent.stdout c => stdoutSignalsReady c
  | StartupEvent.stderr _ => false
  | StartupEvent.spawnError => true
  | StartupEvent.timeoutFires => true

/-- Outcome of the `startBackend` promise on a timeline of events: the
first settling event wins (a promise settles only once). `Except.ok b`
is resolution with `b`, `Except.error ()` is rejection. -/
def settleStartup : List StartupEvent → Option (Except Unit Bool)
  | [] => none
  | StartupEvent.stdout c :: rest =>
      if stdoutSignalsReady c then some (Except.ok true) else settleStartup rest
  | StartupEvent.stderr _ :: rest => settleStartup rest
  | StartupEvent.spawnError :: _ => some (Except.error ())
  | StartupEvent.timeoutFires :: _ => some (Except.ok false)

/-- What the `app.whenReady` handler produces. -/
structure AppInitResult where
  backendReady : Bool
  windowCreated : Bool
  menuCreated : Bool
  ipcHandlersSet : Bool
deriving DecidableEq

/-- The `app.whenReady` handler: awaits `startBackend` inside `try/catch`
(a rejection is only logged), then unconditionally creates the window,
the menu and the IPC handlers. -/
def whenReadyInit (r : Except Unit Bool) : AppInitResult :=
  { backendReady := match r with | Except.ok b => b | Except.error _ => false
    windowCreated := true
    menuCreated := true
    ipcHandlersSet := true }

/-! ### Analysis Dispatcher and Result Aggregator

The repository's per-item dispatch loop and batch classification live in
renderer modules (`pages/Analysis`, `services/api`) that are referenced
by the sources here but are not part of them; the definitions below are
therefore modelled from the design document. -/

inductive Modality where
  | brain
  | chest
  | auto
deriving DecidableEq

/-- Modelled from the spec: `AnalysisRequest { id, imageRef, modality }`,
created when a batch is submitted, immutable. -/
structure AnalysisRequest where
  id : Nat
  imageRef : String
  modality : Modality
deriving DecidableEq

/-- Modelled from the spec: the error taxonomy of a failed inference call
(network error, malformed response, service-side error, timeout). -/
inductive InferenceErrorKind where
  | networkError
  | malformedResponse
  | serviceError
  | requestTimedOut
deriving DecidableEq

/-- Modelled from the spec: `AnalysisOutcome { requestId, success,
prediction?, errorKind? }`, exactly one per request, created when the
request's inference call settles. -/
structure AnalysisOutcome where
  requestId : Nat
  success : Bool
  prediction : Option String
  errorKind : Option InferenceErrorKind
deriving DecidableEq

/-- Modelled from the spec: settling one request's inference call, the
call being an oracle `f` from request to either a prediction or an error
kind. Success produces `success := true` with the prediction; failure
produces `success := false` with the error kind. -/
def settleRequest (f : AnalysisRequest → Except InferenceErrorKind String)
    (r : AnalysisRequest) : AnalysisOutcome :=
  match f r with
  | Except.ok p =>
      { requestId := r.id, success := true, prediction := some p, errorKind := none }
  | Except.error e =>
      { requestId := r.id, success := false, prediction := none, errorKind := some e }

/-- Modelled from the spec: the dispatcher issues one inference call per
request of the batch; each item settles into its own outcome. -/
def runBatch (f : AnalysisRequest → Except InferenceErrorKind String)
    (reqs : List AnalysisRequest) : List AnalysisOutcome :=
  reqs.map (settleRequest f)

/-- Modelled from the spec: state of the dispatcher's work queue — the
requests not yet started, the inference calls currently in flight, and
the outcomes already collected. -/
structure DispatchState where
  queue : List AnalysisRequest
  inFlight : List AnalysisRequest
  completed : List AnalysisOutcome
deriving DecidableEq

/-- Modelled from the spec: the dispatcher's admission control. A queued
request may start only while fewer than `limit` calls are in flight; a
call in flight may finish, recording an outcome. -/
inductive DispatchStep (limit : Nat) : DispatchState → DispatchState → Prop where
  | start (r : AnalysisRequest) (rest fl : List AnalysisRequest)
      (d : List AnalysisOutcome) :
      fl.length < limit →
      DispatchStep limit ⟨r :: rest, fl, d⟩ ⟨rest, r :: fl, d⟩
  | finish (q fl : List AnalysisRequest) (d : List AnalysisOutcome)
      (r : AnalysisRequest) (o : AnalysisOutcome) :
      r ∈ fl →
      DispatchStep limit ⟨q, fl, d⟩ ⟨q, fl.erase r, o :: d⟩

/-- States the dispatcher can reach while processing a submitted batch:
initially the whole batch is queued and nothing is in flight. -/
inductive DispatchReachable (limit : Nat) (batch : List AnalysisRequest) :
    DispatchState → Prop where
  | init : DispatchReachable limit batch ⟨batch, [], []⟩
  | step {s t : DispatchState} :
      DispatchReachable limit batch s → DispatchStep limit s t →
      DispatchReachable limit batch t

/-- Modelled from the spec: the terminal statuses of a `BatchRun`.
The design document names `Running`, `Completed`, `PartiallyFailed` and
`Aborted`; for an uncancelled batch with at least one failure and no
success it only says the result is not `Completed`, so that case is
rendered by the extra value `failed`. -/
inductive BatchStatus where
  | running
  | completed
  | partiallyFailed
  | failed
  | aborted
deriving DecidableEq, BEq

/-- Modelled from the spec: a terminated `BatchRun`, reduced to what the
classification reads — per request, `some true` for a successful outcome,
`some false` for a failed one, `none` for a missing one, and whether the
batch was cancelled before all outcomes arrived. -/
structure BatchTerminal where
  outcomes : List (Option Bool)
  cancelled : Bool
deriving DecidableEq

/-- Modelled from the spec: the final classification of a terminated
batch. Cancellation acknowledgment transitions to `Aborted` regardless of
how many outcomes are present; otherwise every outcome successful gives
`Completed`, some but not all successful gives `PartiallyFailed`, and no
success gives the unnamed wholly-failed terminal. -/
def classifyBatch (b : BatchTerminal) : BatchStatus :=
  if b.cancelled then BatchStatus.aborted
  else if b.outcomes.all (fun o => o == some true) then BatchStatus.completed
  else if b.outcomes.any (fun o => o == some true) then BatchStatus.partiallyFailed
  else BatchStatus.failed

/-! ### Concrete fixtures used by witnesses and counterexamples -/

/-- An inference double that fails request 2 with a network error and
succeeds on every other request. -/
def probeOracle : AnalysisRequest → Except InferenceErrorKind String :=
  fun r =>
    if r.id = 2 then Except.error InferenceErrorKind.networkError
    else Except.ok "tumor"

/-- An image file with id `"x"`. -/
def dupImage : ImageFile :=
  { id := "x", name := "scan.png", path := "scans/scan.png", size := 1,
    type := "image/png", dataUrl := none, preview := none }

/-- An analysis state holding three images that share the id `"x"`, with
the cursor on the last one. -/
def dupState : AnalysisState :=
  { analysisInitialState with
    images := [dupImage, dupImage, dupImage]
    currentImageIndex := 2 }

/-- An analysis state holding two images with distinct ids, with the
cursor on the second one. -/
def pairState : AnalysisState :=
  { analysisInitialState with
    images := [{ dupImage with id := "a" }, { dupImage with id := "b" }]
    currentImageIndex := 1 }

end NeuroAI

/-! ### Theorems for the renderer-store claims -/

/-- C8: for every system state and every `addNotification` action, the
resulting notifications list has length `min (previous length + 1) 10` —
in particular at most 10 — and is a suffix of the list with the new entry
appended (so exactly the most recently added entries are retained), and
the new entry itself is always retained. -/
theorem C8_addNotification_bound (s : NeuroAI.SystemState)
    (t : NeuroAI.NotificationType) (message freshId nowIso : String) :
    (NeuroAI.addNotification s t message freshId nowIso).notifications.length
        = min (s.notifications.length + 1) 10
      ∧ (NeuroAI.addNotification s t message freshId nowIso).notifications.length ≤ 10
      ∧ (NeuroAI.addNotification s t message freshId nowIso).notifications
          <:+ (s.notifications
                ++ [{ id := freshId, type := t, message := message,
                      timestamp := nowIso }])
      ∧ ({ id := freshId, type := t, message := message,
           timestamp := nowIso } : NeuroAI.NotificationEntry)
          ∈ (NeuroAI.addNotification s t message freshId nowIso).notifications := by
  set e : NeuroAI.NotificationEntry :=
    { id := freshId, type := t, message := message, timestamp := nowIso } with he
  set l : List NeuroAI.NotificationEntry := s.notifications ++ [e] with hl
  have hlen : l.length = s.notifications.length + 1 := by
    simp [hl]
  by_cases h : l.length > 10
  · have hres : (NeuroAI.addNotification s t message freshId nowIso).notifications
        = l.drop (l.length - 10) := by
      simp only [NeuroAI.addNotification, ← hl]
      rw [if_pos h]
    refine ⟨?_, ?_, ?_, ?_⟩
    · rw [hres, List.length_drop, hlen]
      omega
    · rw [hres, List.length_drop]
      omega
    · rw [hres]
      exact List.drop_suffix _ _
    · rw [hres]
      have hle : l.length - 10 ≤ s.notifications.length := by omega
      rw [hl, List.drop_append_of_le_length hle]
      exact List.mem_append_right _ (List.mem_singleton.mpr rfl)
  · have hres : (NeuroAI.addNotification s t message freshId nowIso).notifications = l := by
      simp only [NeuroAI.addNotification, ← hl]
      rw [if_neg h]
    refine ⟨?_, ?_, ?_, ?_⟩
    · rw [hres, hlen]
      omega
    · rw [hres]
      omega
    · rw [hres]
    · rw [hres, hl]
      exact List.mem_append_right _ (List.mem_singleton.mpr rfl)

/-- C10: `setIsAnalyzing false` sets `isAnalyzing` to `false` and resets
`analysisProgress` to 0; `setIsAnalyzing true` sets `isAnalyzing` to `true`
and keeps `analysisProgress`; in both cases every other field of the
analysis state is unchanged. -/
theorem C10_setIsAnalyzing_frame (s : NeuroAI.AnalysisState) (b : Bool) :
    (NeuroAI.setIsAnalyzing s false).isAnalyzing = false
      ∧ (NeuroAI.setIsAnalyzing s false).analysisProgress = 0
      ∧ (NeuroAI.setIsAnalyzing s true).isAnalyzing = true
      ∧ (NeuroAI.setIsAnalyzing s true).analysisProgress = s.analysisProgress
      ∧ (NeuroAI.setIsAnalyzing s b).images = s.images
      ∧ (NeuroAI.setIsAnalyzing s b).currentImageIndex = s.currentImageIndex
      ∧ (NeuroAI.setIsAnalyzing s b).results = s.results
      ∧ (NeuroAI.setIsAnalyzing s b).currentAnalysisType = s.currentAnalysisType
      ∧ (NeuroAI.setIsAnalyzing s b).batchMode = s.batchMode
      ∧ (NeuroAI.setIsAnalyzing s b).selectedResults = s.selectedResults := by
  refine ⟨rfl, rfl, rfl, rfl, rfl, rfl, rfl, rfl, rfl, rfl⟩

/-! ### Theorems for the main-process claims -/

/-- An event that does not settle the `startBackend` promise is skipped. -/
theorem settleStartup_cons_skip (e : NeuroAI.StartupEvent)
    (l : List NeuroAI.StartupEvent) (he : NeuroAI.settlesStartup e = false) :
    NeuroAI.settleStartup (e :: l) = NeuroAI.settleStartup l := by
  cases e with
  | stdout c =>
      simp only [NeuroAI.settlesStartup] at he
      simp [NeuroAI.settleStartup, he]
  | stderr c => rfl
  | spawnError => simp [NeuroAI.settlesStartup] at he
  | timeoutFires => simp [NeuroAI.settlesStartup] at he

/-- C1 counterexample: after `startBackend` has spawned the backend and no
quit was requested (`isQuitting = false`), a termination of the backend
process leaves the main-process state completely unchanged — in
particular no restart is scheduled (`pendingRestart = none`), contrary to
the claim's crash-handling with exponential backoff. -/
theorem C1_counterexample_no_restart :
    NeuroAI.mainAfterSpawn.isQuitting = false
      ∧ NeuroAI.onBackendExit NeuroAI.mainAfterSpawn = NeuroAI.mainAfterSpawn
      ∧ (NeuroAI.onBackendExit NeuroAI.mainAfterSpawn).pendingRestart = none
      ∧ (NeuroAI.onBackendExit NeuroAI.mainAfterSpawn).spawnCount = 1 :=
  ⟨rfl, rfl, rfl, rfl⟩

/-- C1 amended: the main process registers no handler for the backend
process's exit event, so an unrequested termination causes no state
transition at all — no `Crashed` status, no restart, no backoff. -/
theorem C1_exit_unhandled (s : NeuroAI.MainState) :
    NeuroAI.onBackendExit s = s
      ∧ NeuroAI.startBackendSubscribedEvents.contains NeuroAI.BackendEvent.exitEvent
          = false :=
  ⟨rfl, by decide⟩

/-- C2 counterexample: two startup timelines that differ only in the text
of the backend's console output settle the readiness wait differently —
`" * Running on http://127.0.0.1:5000"` resolves ready, any chunk without
the substring `"Running on"` falls through to the timeout — so readiness
is detected precisely by string-matching the process's console output,
not by a health prober polling a liveness endpoint. -/
theorem C2_counterexample_string_match :
    NeuroAI.settleStartup
        [NeuroAI.StartupEvent.stdout " * Running on http://127.0.0.1:5000",
         NeuroAI.StartupEvent.timeoutFires]
      = some (Except.ok true)
      ∧ NeuroAI.settleStartup
          [NeuroAI.StartupEvent.stdout " * Serving Flask app",
           NeuroAI.StartupEvent.timeoutFires]
        = some (Except.ok false) :=
  ⟨rfl, rfl⟩

/-- C2 amended: the startup wait reports the backend ready exactly when a
stdout chunk containing the substring `"Running on"` arrives before any
settling event (spawn error or the 10s timeout): readiness detection is
string-matching of console output. -/
theorem C2_readiness_is_stdout_match (evs : List NeuroAI.StartupEvent) :
    NeuroAI.settleStartup evs = some (Except.ok true)
      ↔ ∃ pre c post,
          evs = pre ++ NeuroAI.StartupEvent.stdout c :: post
            ∧ NeuroAI.stdoutSignalsReady c = true
            ∧ ∀ e ∈ pre, NeuroAI.settlesStartup e = false := by
  induction evs with
  | nil =>
      constructor
      · intro h
        simp [NeuroAI.settleStartup] at h
      · rintro ⟨pre, c, post, hsplit, -, -⟩
        cases pre <;> simp at hsplit
  | cons e rest ih =>
      constructor
      · intro h
        cases he : NeuroAI.settlesStartup e with
        | false =>
            rw [settleStartup_cons_skip e rest he] at h
            obtain ⟨pre, c, post, hsplit, hc, hpre⟩ := ih.mp h
            refine ⟨e :: pre, c, post, by rw [hsplit]; rfl, hc, ?_⟩
            intro x hx
            rcases List.mem_cons.mp hx with hx | hx
            · rw [hx]; exact he
            · exact hpre x hx
        | true =>
            cases e with
            | stdout c =>
                simp only [NeuroAI.settlesStartup] at he
                refine ⟨[], c, rest, rfl, he, ?_⟩
                intro x hx
                simp at hx
            | stderr c => simp [NeuroAI.settlesStartup] at he
            | spawnError => simp [NeuroAI.settleStartup] at h
            | timeoutFires => simp [NeuroAI.settleStartup] at h
      · rintro ⟨pre, c, post, hsplit, hc, hpre⟩
        cases pre with
        | nil =>
            simp only [List.nil_append] at hsplit
            rw [hsplit]
            simp [NeuroAI.settleStartup, hc]
        | cons p ps =>
            rw [List.cons_append] at hsplit
            injection hsplit with hp hrest
            have hps : NeuroAI.settlesStartup e = false := by
              rw [hp]
              exact hpre p (List.mem_cons_self p ps)
            rw [settleStartup_cons_skip e rest hps]
            refine ih.mpr ⟨ps, c, post, hrest, hc, ?_⟩
            intro x hx
            exact hpre x (List.mem_cons_of_mem p hx)

/-- C3: when no settling event (ready stdout chunk or spawn error) occurs
before the fixed 10s timeout, the startup wait resolves with the
non-ready result `false` (it is not a rejection), and the `whenReady`
initialization continues regardless of the startup outcome: the window,
menu and IPC handlers are created, with the backend merely reported
non-ready — a degraded mode rather than a failure. -/
theorem C3_timeout_degraded_continue
    (pre post : List NeuroAI.StartupEvent)
    (h : ∀ e ∈ pre, NeuroAI.settlesStartup e = false) :
    NeuroAI.settleStartup (pre ++ NeuroAI.StartupEvent.timeoutFires :: post)
        = some (Except.ok false)
      ∧ (∀ r, (NeuroAI.whenReadyInit r).windowCreated = true
            ∧ (NeuroAI.whenReadyInit r).menuCreated = true
            ∧ (NeuroAI.whenReadyInit r).ipcHandlersSet = true)
      ∧ (NeuroAI.whenReadyInit (Except.ok false)).backendReady = false := by
  refine ⟨?_, fun r => ⟨rfl, rfl, rfl⟩, rfl⟩
  induction pre with
  | nil => rfl
  | cons p ps ih =>
      rw [List.cons_append,
          settleStartup_cons_skip p _ (h p (List.mem_cons_self p ps))]
      exact ih (fun e he => h e (List.mem_cons_of_mem p he))

/-- Witness for C3 at a concrete timeline: a stdout chunk without the
marker, then the timeout. -/
theorem C3_witness :
    NeuroAI.settleStartup
        [NeuroAI.StartupEvent.stdout "boot", NeuroAI.StartupEvent.timeoutFires]
      = some (Except.ok false)
      ∧ (NeuroAI.whenReadyInit (Except.ok false)).windowCreated = true := by
  have h := C3_timeout_degraded_continue
    [NeuroAI.StartupEvent.stdout "boot"] [] (by decide)
  exact ⟨h.1, (h.2.1 (Except.ok false)).1⟩

/-- C5: the `before-quit` handler is idempotent — applying it twice gives
exactly the state after the first application — it is registered on `app`
(so it runs at shutdown), and its first application kills a live backend
process (exactly one kill signal is sent). -/
theorem C5_beforeQuit_idempotent (s : NeuroAI.MainState) :
    NeuroAI.beforeQuit (NeuroAI.beforeQuit s) = NeuroAI.beforeQuit s
      ∧ (NeuroAI.beforeQuit s).isQuitting = true
      ∧ NeuroAI.registeredAppEvents.contains NeuroAI.AppEvent.beforeQuit = true
      ∧ ∀ p, s.backendProcess = some p → p.killed = false →
          (NeuroAI.beforeQuit s).backendProcess = some { killed := true }
            ∧ (NeuroAI.beforeQuit s).killCount = s.killCount + 1 := by
  rcases s with ⟨bp, q, sr, kc, pr, sc⟩
  rcases bp with _ | ⟨⟨kb⟩⟩
  · refine ⟨rfl, rfl, by decide, ?_⟩
    intro p hp
    exact absurd hp (by simp)
  · cases kb
    · refine ⟨rfl, rfl, by decide, ?_⟩
      intro p hp hk
      cases hp
      exact ⟨rfl, rfl⟩
    · refine ⟨rfl, rfl, by decide, ?_⟩
      intro p hp hk
      cases hp
      exact absurd hk (by decide)

/-- Witness for C5 at the state right after spawning: the second
application of `before-quit` is a no-op and exactly one kill was sent. -/
theorem C5_witness :
    NeuroAI.beforeQuit (NeuroAI.beforeQuit NeuroAI.mainAfterSpawn)
        = NeuroAI.beforeQuit NeuroAI.mainAfterSpawn
      ∧ (NeuroAI.beforeQuit NeuroAI.mainAfterSpawn).killCount = 1 := by
  have h := C5_beforeQuit_idempotent NeuroAI.mainAfterSpawn
  exact ⟨h.1, (h.2.2.2 { killed := false } rfl rfl).2⟩

/-! ### Theorems for the dispatcher and aggregator claims -/

/-- C4: in every state the dispatcher can reach while processing a batch,
at most `limit` inference calls are in flight; requests beyond the limit
stay in the work queue. -/
theorem C4_bounded_in_flight (limit : Nat) (batch : List NeuroAI.AnalysisRequest)
    (s : NeuroAI.DispatchState) (h : NeuroAI.DispatchReachable limit batch s) :
    s.inFlight.length ≤ limit := by
  induction h with
  | init => exact Nat.zero_le limit
  | step hreach hstep ih =>
      cases hstep with
      | start r rest fl d hlt => exact hlt
      | finish q fl d r o hmem =>
          exact le_trans (List.Sublist.length_le (List.erase_sublist r fl)) ih

/-- Witness for C4: with `concurrencyLimit = 2` and a three-request
batch, the state reached after starting the first request keeps at most
two calls in flight. -/
theorem C4_witness :
    ({ queue := [{ id := 2, imageRef := "b", modality := NeuroAI.Modality.auto },
                 { id := 3, imageRef := "c", modality := NeuroAI.Modality.auto }],
       inFlight := [{ id := 1, imageRef := "a", modality := NeuroAI.Modality.auto }],
       completed := [] } : NeuroAI.DispatchState).inFlight.length ≤ 2 :=
  C4_bounded_in_flight 2
    [{ id := 1, imageRef := "a", modality := NeuroAI.Modality.auto },
     { id := 2, imageRef := "b", modality := NeuroAI.Modality.auto },
     { id := 3, imageRef := "c", modality := NeuroAI.Modality.auto }]
    _
    (NeuroAI.DispatchReachable.step NeuroAI.DispatchReachable.init
      (NeuroAI.DispatchStep.start
        { id := 1, imageRef := "a", modality := NeuroAI.Modality.auto }
        [{ id := 2, imageRef := "b", modality := NeuroAI.Modality.auto },
         { id := 3, imageRef := "c", modality := NeuroAI.Modality.auto }]
        [] [] (by decide)))

/-- C6 counterexample: a batch cancelled after one success was recorded
and one outcome is still missing satisfies "at least one success and at
least one failure/missing", yet it is classified `Aborted`, not
`PartiallyFailed` — the claim's `PartiallyFailed` biconditional fails. -/
theorem C6_counterexample_aborted_with_success :
    NeuroAI.classifyBatch { outcomes := [some true, none], cancelled := true }
        = NeuroAI.BatchStatus.aborted
      ∧ ([some true, none] : List (Option Bool)).any (fun o => o == some true) = true
      ∧ ([some true, none] : List (Option Bool)).any (fun o => !(o == some true)) = true
      ∧ (NeuroAI.classifyBatch { outcomes := [some true, none], cancelled := true }
          == NeuroAI.BatchStatus.partiallyFailed) = false :=
  ⟨rfl, rfl, rfl, rfl⟩

/-- C6 amended: for a terminated batch (where cancellation implies a
missing outcome), the status is `Completed` iff every request has a
successful outcome, `PartiallyFailed` iff the batch was *not cancelled*
and has at least one success and at least one failure or missing outcome,
and `Aborted` iff the batch was cancelled before all outcomes arrived. -/
theorem C6_classification (b : NeuroAI.BatchTerminal)
    (hcm : b.cancelled = true → b.outcomes.any (fun o => o == none) = true) :
    (NeuroAI.classifyBatch b = NeuroAI.BatchStatus.completed
        ↔ ∀ o ∈ b.outcomes, o = some true)
      ∧ (NeuroAI.classifyBatch b = NeuroAI.BatchStatus.partiallyFailed
        ↔ b.cancelled = false ∧ (∃ o ∈ b.outcomes, o = some true)
            ∧ ∃ o ∈ b.outcomes, o ≠ some true)
      ∧ (NeuroAI.classifyBatch b = NeuroAI.BatchStatus.aborted
        ↔ b.cancelled = true) := by
  rcases b with ⟨outs, c⟩
  cases c
  case false =>
    have hclass : NeuroAI.classifyBatch ⟨outs, false⟩
        = (if outs.all (fun o => o == some true) then NeuroAI.BatchStatus.completed
           else if outs.any (fun o => o == some true) then
             NeuroAI.BatchStatus.partiallyFailed
           else NeuroAI.BatchStatus.failed) := rfl
    by_cases hall : outs.all (fun o => o == some true) = true
    · have hforall : ∀ o ∈ outs, o = some true := by
        intro o ho
        exact beq_iff_eq.mp (List.all_eq_true.mp hall o ho)
      rw [hclass, if_pos hall]
      refine ⟨⟨fun _ => hforall, fun _ => rfl⟩, ?_, ?_⟩
      · constructor
        · intro h
          exact absurd h (by decide)
        · rintro ⟨-, -, o, ho, hne⟩
          exact absurd (hforall o ho) hne
      · constructor
        · intro h
          exact absurd h (by decide)
        · intro h
          exact nomatch h
    · have hnex : ∃ o ∈ outs, o ≠ some true := by
        simp only [List.all_eq_true] at hall
        push_neg at hall
        obtain ⟨o, ho, hpo⟩ := hall
        refine ⟨o, ho, fun he => hpo ?_⟩
        rw [he]
        rfl
      by_cases hany : outs.any (fun o => o == some true) = true
      · have hex : ∃ o ∈ outs, o = some true := by
          obtain ⟨o, ho, hbeq⟩ := List.any_eq_true.mp hany
          exact ⟨o, ho, beq_iff_eq.mp hbeq⟩
        rw [hclass, if_neg hall, if_pos hany]
        refine ⟨?_, ⟨fun _ => ⟨rfl, hex, hnex⟩, fun _ => rfl⟩, ?_⟩
        · constructor
          · intro h
            exact absurd h (by decide)
          · intro hforall
            obtain ⟨o, ho, hne⟩ := hnex
            exact absurd (hforall o ho) hne
        · constructor
          · intro h
            exact absurd h (by decide)
          · intro h
            exact nomatch h
      · have hnoSucc : ∀ o ∈ outs, o ≠ some true := by
          intro o ho he
          exact hany (List.any_eq_true.mpr ⟨o, ho, by rw [he]; rfl⟩)
        rw [hclass, if_neg hall, if_neg hany]
        refine ⟨?_, ?_, ?_⟩
        · constructor
          · intro h
            exact absurd h (by decide)
          · intro hforall
            exact absurd
              (List.all_eq_true.mpr (fun o ho => by rw [hforall o ho]; rfl)) hall
        · constructor
          · intro h
            exact absurd h (by decide)
          · rintro ⟨-, ⟨o, ho, he⟩, -⟩
            exact absurd he (hnoSucc o ho)
        · constructor
          · intro h
            exact absurd h (by decide)
          · intro h
            exact nomatch h
  case true =>
    have hclass : NeuroAI.classifyBatch ⟨outs, true⟩ = NeuroAI.BatchStatus.aborted := rfl
    have hmiss : ∃ o ∈ outs, o = none := by
      obtain ⟨o, ho, hbeq⟩ := List.any_eq_true.mp (hcm rfl)
      exact ⟨o, ho, beq_iff_eq.mp hbeq⟩
    rw [hclass]
    refine ⟨?_, ?_, ⟨fun _ => rfl, fun _ => rfl⟩⟩
    · constructor
      · intro h
        exact absurd h (by decide)
      · intro hforall
        obtain ⟨o, ho, he⟩ := hmiss
        rw [hforall o ho] at he
        exact absurd he (by decide)
    · constructor
      · intro h
        exact absurd h (by decide)
      · rintro ⟨hcf, -, -⟩
        exact nomatch hcf

/-- Witness for C6 at a concrete uncancelled batch with one success and
one failure: it classifies as `PartiallyFailed`. -/
theorem C6_witness :
    NeuroAI.classifyBatch { outcomes := [some true, some false], cancelled := false }
      = NeuroAI.BatchStatus.partiallyFailed := by
  have h := C6_classification
    { outcomes := [some true, some false], cancelled := false } (fun hc => nomatch hc)
  exact h.2.1.mpr (by decide)

/-- C7: every request of a batch settles into its own outcome — the
result list keeps one outcome per request, a failing call is recorded at
that item's position with `success := false` and its error kind, an
item's outcome depends only on that item's own call (so a sibling's
failure never changes it), and recording a result in the store appends it
without touching the results already recorded. -/
theorem C7_failure_isolated
    (f g : NeuroAI.AnalysisRequest → Except NeuroAI.InferenceErrorKind String)
    (reqs : List NeuroAI.AnalysisRequest) (i : Nat) (r : NeuroAI.AnalysisRequest)
    (hir : reqs[i]? = some r) :
    (NeuroAI.runBatch f reqs).length = reqs.length
      ∧ (NeuroAI.runBatch f reqs)[i]? = some (NeuroAI.settleRequest f r)
      ∧ (∀ e, f r = Except.error e →
          (NeuroAI.runBatch f reqs)[i]?
            = some { requestId := r.id, success := false, prediction := none,
                     errorKind := some e })
      ∧ (f r = g r → (NeuroAI.runBatch g reqs)[i]? = (NeuroAI.runBatch f reqs)[i]?)
      ∧ ∀ (st : NeuroAI.AnalysisState) (res : NeuroAI.AnalysisResult),
          (NeuroAI.addResult st res).results = st.results ++ [res] := by
  have hmapf : (NeuroAI.runBatch f reqs)[i]? = some (NeuroAI.settleRequest f r) := by
    rw [NeuroAI.runBatch, List.getElem?_map, hir]
    rfl
  have hmapg : (NeuroAI.runBatch g reqs)[i]? = some (NeuroAI.settleRequest g r) := by
    rw [NeuroAI.runBatch, List.getElem?_map, hir]
    rfl
  refine ⟨by simp [NeuroAI.runBatch], hmapf, ?_, ?_, fun st res => rfl⟩
  · intro e he
    rw [hmapf]
    simp [NeuroAI.settleRequest, he]
  · intro hfg
    rw [hmapf, hmapg]
    simp [NeuroAI.settleRequest, hfg]

/-- Witness for C7: under the inference double that fails request 2, a
two-request batch still yields two outcomes and the failing item's own
outcome records the network error. -/
theorem C7_witness :
    (NeuroAI.runBatch NeuroAI.probeOracle
        [{ id := 1, imageRef := "a", modality := NeuroAI.Modality.auto },
         { id := 2, imageRef := "b", modality := NeuroAI.Modality.auto }]).length = 2
      ∧ (NeuroAI.runBatch NeuroAI.probeOracle
          [{ id := 1, imageRef := "a", modality := NeuroAI.Modality.auto },
           { id := 2, imageRef := "b", modality := NeuroAI.Modality.auto }])[1]?
        = some { requestId := 2, success := false, prediction := none,
                 errorKind := some NeuroAI.InferenceErrorKind.networkError } := by
  have h := C7_failure_isolated NeuroAI.probeOracle NeuroAI.probeOracle
    [{ id := 1, imageRef := "a", modality := NeuroAI.Modality.auto },
     { id := 2, imageRef := "b", modality := NeuroAI.Modality.auto }] 1
    { id := 2, imageRef := "b", modality := NeuroAI.Modality.auto } rfl
  exact ⟨h.1, h.2.2.1 NeuroAI.InferenceErrorKind.networkError rfl⟩

/-! ### Theorems for the removeImage claim -/

/-- When the image ids are pairwise distinct, filtering one id away
removes at most one element. -/
theorem length_le_filter_ne_succ (l : List NeuroAI.ImageFile) (pid : String)
    (h : (l.map (fun img => img.id)).Nodup) :
    l.length ≤ (l.filter (fun img => img.id != pid)).length + 1 := by
  induction l with
  | nil => simp
  | cons a rest ih =>
      rw [List.map_cons, List.nodup_cons] at h
      obtain ⟨hnotin, hrest⟩ := h
      have hih := ih hrest
      by_cases ha : a.id = pid
      · have hfilter : rest.filter (fun img => img.id != pid) = rest := by
          apply List.filter_eq_self.mpr
          intro b hb
          have hb' : b.id ≠ pid := by
            intro he
            have hbmem : b.id ∈ rest.map (fun img => img.id) :=
              List.mem_map_of_mem _ hb
            rw [he, ← ha] at hbmem
            exact absurd hbmem hnotin
          simp [hb']
        simp [List.filter_cons, ha, hfilter]
      · simp only [List.filter_cons, List.length_cons]
        have hkeep : (a.id != pid) = true := by simp [ha]
        rw [if_pos hkeep]
        simp only [List.length_cons]
        omega

/-- C9 amended: for every analysis state whose image ids are pairwise
distinct (so `removeImage` removes at most one image) and whose
`currentImageIndex` is a valid position, `removeImage` with any id yields
a state whose `currentImageIndex` is again a valid position: it is
decremented when it would fall at or past the end of the shrunken list,
and never becomes negative. -/
theorem C9_removeImage_keeps_validIndex (s : NeuroAI.AnalysisState) (pid : String)
    (hnd : (s.images.map (fun img => img.id)).Nodup)
    (hv : NeuroAI.validIndex s) :
    NeuroAI.validIndex (NeuroAI.removeImage s pid) := by
  obtain ⟨h0, hcase⟩ := hv
  have hub : (s.images.filter (fun img => img.id != pid)).length ≤ s.images.length :=
    List.length_filter_le _ _
  have hlb : s.images.length
      ≤ (s.images.filter (fun img => img.id != pid)).length + 1 :=
    length_le_filter_ne_succ s.images pid hnd
  simp only [NeuroAI.validIndex, NeuroAI.removeImage]
  split_ifs with hcond
  · omega
  · omega

/-- C9 counterexample: with three images sharing the id `"x"` and the
cursor on the last one, `removeImage "x"` filters all three away but
decrements the index only once, leaving index 1 on an empty list — an
invalid position. -/
theorem C9_counterexample_duplicate_ids :
    decide (NeuroAI.validIndex NeuroAI.dupState) = true
      ∧ decide (NeuroAI.validIndex (NeuroAI.removeImage NeuroAI.dupState "x")) = false :=
  ⟨rfl, rfl⟩

/-- Witness for C9 at a concrete state with distinct ids: removing the
second image keeps the index valid. -/
theorem C9_witness :
    NeuroAI.validIndex (NeuroAI.removeImage NeuroAI.pairState "b") :=
  C9_removeImage_keeps_validIndex NeuroAI.pairState "b" (by decide) (by decide)
